import Mathlib

/-!
Verification of the CBOR-lite codec (`cbor_lite.py`): a shallow embedding of
the encoder and decoder, followed by theorems settling the specification
claims.  Byte buffers are modelled as `List Nat` (each element a byte value),
machine integers as `Nat`/`Int`, and fallible operations return
`Except String`.
-/

/- Flag constants (the `Flag` dict in the source). -/
namespace Flag

def none : Nat := 0

def requireMinimalEncoding : Nat := 1 <<< 0

end Flag

/- Major and minor tag constants (the `Tag` dict in the source). -/
namespace Tag

namespace Major

def unsignedInteger : Nat := 0

def negativeInteger : Nat := 1 <<< 5

def byteString : Nat := 2 <<< 5

def textString : Nat := 3 <<< 5

def array : Nat := 4 <<< 5

def map : Nat := 5 <<< 5

def semantic : Nat := 6 <<< 5

def mask : Nat := 0xe0

end Major

namespace Minor

def length1 : Nat := 24

def length2 : Nat := 25

def length4 : Nat := 26

def length8 : Nat := 27

def cborEncodedData : Nat := 24

def mask : Nat := 0x1f

end Minor

end Tag

/-- Python `int.bit_length()` for non-negative integers: the number of bits
needed to represent `n`, with `bit_length 0 = 0`. -/
def bit_length (n : Nat) : Nat := if n = 0 then 0 else Nat.log2 n + 1

/-- `get_byte_length` from the source: `0` if the value fits inline
(`value < 24`), otherwise `(value.bit_length() + 7) // 8`. -/
def get_byte_length (value : Nat) : Nat :=
  if value < 24 then 0 else (bit_length value + 7) / 8

/-- The encoder state: a growable output byte buffer (`self.buf`). -/
structure CBOREncoder where
  buf : List Nat
deriving DecidableEq

namespace CBOREncoder

/-- `CBOREncoder.encodeTagAndAdditional`: append the single header octet
`tag + additional` and report one byte written. -/
def encodeTagAndAdditional (e : CBOREncoder) (tag additional : Nat) :
    Nat × CBOREncoder :=
  (1, ⟨e.buf ++ [tag + additional]⟩)

/-- `CBOREncoder.encodeTagAndValue`: compute the required byte length, emit a
header octet plus 0/1/2/4/8 big-endian value bytes, and return
`1 + length` (the length as computed, not as emitted).  Lengths above 8
raise an exception. -/
def encodeTagAndValue (e : CBOREncoder) (tag value : Nat) :
    Except String (Nat × CBOREncoder) :=
  let length := get_byte_length value
  if 5 ≤ length ∧ length ≤ 8 then
    let e1 := (e.encodeTagAndAdditional tag Tag.Minor.length8).2
    Except.ok (1 + length, ⟨e1.buf ++
      [(value >>> 56) &&& 0xff, (value >>> 48) &&& 0xff,
       (value >>> 40) &&& 0xff, (value >>> 32) &&& 0xff,
       (value >>> 24) &&& 0xff, (value >>> 16) &&& 0xff,
       (value >>> 8) &&& 0xff, value &&& 0xff]⟩)
  else if length = 3 ∨ length = 4 then
    let e1 := (e.encodeTagAndAdditional tag Tag.Minor.length4).2
    Except.ok (1 + length, ⟨e1.buf ++
      [(value >>> 24) &&& 0xff, (value >>> 16) &&& 0xff,
       (value >>> 8) &&& 0xff, value &&& 0xff]⟩)
  else if length = 2 then
    let e1 := (e.encodeTagAndAdditional tag Tag.Minor.length2).2
    Except.ok (1 + length, ⟨e1.buf ++ [(value >>> 8) &&& 0xff, value &&& 0xff]⟩)
  else if length = 1 then
    let e1 := (e.encodeTagAndAdditional tag Tag.Minor.length1).2
    Except.ok (1 + length, ⟨e1.buf ++ [value &&& 0xff]⟩)
  else if length = 0 then
    let e1 := (e.encodeTagAndAdditional tag value).2
    Except.ok (1 + length, e1)
  else
    Except.error ("Unsupported byte length of " ++ toString length ++
      " for value in encodeTagAndValue()")

/-- `CBOREncoder.encodeUnsigned`. -/
def encodeUnsigned (e : CBOREncoder) (value : Nat) :
    Except String (Nat × CBOREncoder) :=
  e.encodeTagAndValue Tag.Major.unsignedInteger value

/-- `CBOREncoder.encodeBytes`: byte-string header followed by the raw payload
bytes; returns header length + payload length. -/
def encodeBytes (e : CBOREncoder) (value : List Nat) :
    Except String (Nat × CBOREncoder) :=
  match e.encodeTagAndValue Tag.Major.byteString value.length with
  | Except.error err => Except.error err
  | Except.ok (length, e1) => Except.ok (length + value.length, ⟨e1.buf ++ value⟩)

/-- `CBOREncoder.encodeEncodedBytes`: semantic "cborEncodedData" header
followed by a byte-string encoding of the payload. -/
def encodeEncodedBytes (e : CBOREncoder) (value : List Nat) :
    Except String (Nat × CBOREncoder) :=
  match e.encodeTagAndValue Tag.Major.semantic Tag.Minor.cborEncodedData with
  | Except.error err => Except.error err
  | Except.ok (length, e1) =>
    match e1.encodeBytes value with
    | Except.error err => Except.error err
    | Except.ok (l2, e2) => Except.ok (length + l2, e2)

/-- `CBOREncoder.encodeText`: the source writes the text-string header and
then runs `self.buf.append(bytes(value, "utf8"))`; `bytearray.append`
accepts only an integer in 0..255, so passing a `bytes` object raises
`TypeError` for every string.  The embedding reflects that unconditional
failure after the header computation. -/
def encodeText (e : CBOREncoder) (value : String) :
    Except String (Nat × CBOREncoder) :=
  let str_len := value.length
  match e.encodeTagAndValue Tag.Major.textString str_len with
  | Except.error err => Except.error err
  | Except.ok (_, _) =>
    Except.error "TypeError: an integer is required (bytearray.append with a bytes argument)"

/-- `CBOREncoder.encodeArraySize`. -/
def encodeArraySize (e : CBOREncoder) (value : Nat) :
    Except String (Nat × CBOREncoder) :=
  e.encodeTagAndValue Tag.Major.array value

/-- `CBOREncoder.encodeMapSize`. -/
def encodeMapSize (e : CBOREncoder) (value : Nat) :
    Except String (Nat × CBOREncoder) :=
  e.encodeTagAndValue Tag.Major.map value

end CBOREncoder

/-- The decoder state: the input byte buffer (`self.buf`) and the read cursor
(`self.pos`, initially 0). -/
structure CBORDecoder where
  buf : List Nat
  pos : Nat
deriving DecidableEq

namespace CBORDecoder

/-- The `for shift in [...]` read loop of `decodeTagAndValue`: OR each byte,
shifted into place, into the accumulator, advancing the cursor.  Returns the
accumulated value and the final cursor.  (All call sites are guarded so the
reads are in range; out-of-range reads default to 0.) -/
def readLoop (buf : List Nat) : List Nat → Nat → Nat → Nat × Nat
  | [], pos, value => (value, pos)
  | shift :: shifts, pos, value =>
    readLoop buf shifts (pos + 1) (value ||| ((buf.getD pos 0) <<< shift))

/-- `CBORDecoder.decodeTagAndAdditional`: read one header octet (failing on
exhausted input), split it into major tag and minor indicator, advance the
cursor by one and report one byte consumed. -/
def decodeTagAndAdditional (d : CBORDecoder) :
    Except String (Nat × Nat × Nat × CBORDecoder) :=
  if d.pos = d.buf.length then Except.error "Not enough input"
  else
    match d.buf[d.pos]? with
    | none => Except.error "IndexError"
    | some octet =>
      Except.ok (octet &&& Tag.Major.mask, octet &&& Tag.Minor.mask, 1,
        ⟨d.buf, d.pos + 1⟩)

/-- `CBORDecoder.decodeTagAndValue`: read a header; an indicator below 24 is
the magnitude itself (one byte consumed); indicators 27/26/25/24 read
8/4/2/1 further big-endian bytes (the third component of the result is then
`self.pos`, the absolute cursor, as in the source); any other indicator is
an error.  With `requireMinimalEncoding` set, a multi-byte magnitude of zero
is rejected. -/
def decodeTagAndValue (flags : Nat) (d : CBORDecoder) :
    Except String (Nat × Nat × Nat × CBORDecoder) :=
  let endPos := d.buf.length
  if d.pos = endPos then Except.error "Not enough input"
  else
    match d.decodeTagAndAdditional with
    | Except.error e => Except.error e
    | Except.ok (tag, additional, length, d1) =>
      if additional < Tag.Minor.length1 then
        Except.ok (tag, additional, length, d1)
      else if additional = Tag.Minor.length8 then
        if endPos - d1.pos < 8 then Except.error "Not enough input"
        else
          let vp := readLoop d1.buf [56, 48, 40, 32, 24, 16, 8, 0] d1.pos 0
          if flags &&& Flag.requireMinimalEncoding ≠ 0 ∧ vp.1 = 0 then
            Except.error "Encoding not minimal"
          else Except.ok (tag, vp.1, vp.2, ⟨d1.buf, vp.2⟩)
      else if additional = Tag.Minor.length4 then
        if endPos - d1.pos < 4 then Except.error "Not enough input"
        else
          let vp := readLoop d1.buf [24, 16, 8, 0] d1.pos 0
          if flags &&& Flag.requireMinimalEncoding ≠ 0 ∧ vp.1 = 0 then
            Except.error "Encoding not minimal"
          else Except.ok (tag, vp.1, vp.2, ⟨d1.buf, vp.2⟩)
      else if additional = Tag.Minor.length2 then
        if endPos - d1.pos < 2 then Except.error "Not enough input"
        else
          let vp := readLoop d1.buf [8, 0] d1.pos 0
          if flags &&& Flag.requireMinimalEncoding ≠ 0 ∧ vp.1 = 0 then
            Except.error "Encoding not minimal"
          else Except.ok (tag, vp.1, vp.2, ⟨d1.buf, vp.2⟩)
      else if additional = Tag.Minor.length1 then
        if endPos - d1.pos < 1 then Except.error "Not enough input"
        else
          let value := 0 ||| d1.buf.getD d1.pos 0
          let pos2 := d1.pos + 1
          if flags &&& Flag.requireMinimalEncoding ≠ 0 ∧ value = 0 then
            Except.error "Encoding not minimal"
          else Except.ok (tag, value, pos2, ⟨d1.buf, pos2⟩)
      else Except.error "Bad additional value"

/-- `CBORDecoder.decodeUnsigned`. -/
def decodeUnsigned (flags : Nat) (d : CBORDecoder) :
    Except String (Nat × Nat × CBORDecoder) :=
  match decodeTagAndValue flags d with
  | Except.error e => Except.error e
  | Except.ok (tag, value, length, d1) =>
    if tag ≠ Tag.Major.unsignedInteger then
      Except.error ("Expected Tag.Major.unsignedInteger (" ++
        toString Tag.Major.unsignedInteger ++ "), but found " ++ toString tag)
    else Except.ok (value, length, d1)

/-- `CBORDecoder.decodeInteger`: dispatch on the decoded major tag; an
unsigned value is returned as-is, a negative one as `-1 - value`, and any
other tag falls through the if/elif chain, returning Python `None`
(modelled as `Option.none`). -/
def decodeInteger (flags : Nat) (d : CBORDecoder) :
    Except String (Option (Int × Nat) × CBORDecoder) :=
  match decodeTagAndValue flags d with
  | Except.error e => Except.error e
  | Except.ok (tag, value, length, d1) =>
    if tag = Tag.Major.unsignedInteger then
      Except.ok (some ((value : Int), length), d1)
    else if tag = Tag.Major.negativeInteger then
      Except.ok (some (-1 - (value : Int), length), d1)
    else Except.ok (none, d1)

/-- `CBORDecoder.decodeBytes`: a byte-string header whose magnitude is the
payload length, then that many raw bytes; returns the payload and header
length + payload length. -/
def decodeBytes (flags : Nat) (d : CBORDecoder) :
    Except String (List Nat × Nat × CBORDecoder) :=
  match decodeTagAndValue flags d with
  | Except.error e => Except.error e
  | Except.ok (tag, byte_length, size_length, d1) =>
    if tag ≠ Tag.Major.byteString then Except.error "Not a byteString"
    else if d1.buf.length - d1.pos < byte_length then
      Except.error "Not enough input"
    else
      Except.ok ((d1.buf.drop d1.pos).take byte_length,
        size_length + byte_length, ⟨d1.buf, d1.pos + byte_length⟩)

/-- `CBORDecoder.decodeEncodedBytes`: a semantic "cborEncodedData" header
followed by a nested byte string; returns the payload and the sum of the
reported lengths. -/
def decodeEncodedBytes (flags : Nat) (d : CBORDecoder) :
    Except String (List Nat × Nat × CBORDecoder) :=
  match decodeTagAndValue flags d with
  | Except.error e => Except.error e
  | Except.ok (tag, minor_tag, tag_length, d1) =>
    if tag ≠ Tag.Major.semantic ∨ minor_tag ≠ Tag.Minor.cborEncodedData then
      Except.error "Not CBOR Encoded Data"
    else
      match decodeBytes flags d1 with
      | Except.error e => Except.error e
      | Except.ok (value, length, d2) => Except.ok (value, tag_length + length, d2)

/-- `CBORDecoder.decodeText`: a text-string header whose magnitude is the
payload length, then that many raw bytes. -/
def decodeText (flags : Nat) (d : CBORDecoder) :
    Except String (List Nat × Nat × CBORDecoder) :=
  match decodeTagAndValue flags d with
  | Except.error e => Except.error e
  | Except.ok (tag, byte_length, size_length, d1) =>
    if tag ≠ Tag.Major.textString then Except.error "Not a textString"
    else if d1.buf.length - d1.pos < byte_length then
      Except.error "Not enough input"
    else
      Except.ok ((d1.buf.drop d1.pos).take byte_length,
        size_length + byte_length, ⟨d1.buf, d1.pos + byte_length⟩)

/-- `CBORDecoder.decodeArraySize`. -/
def decodeArraySize (flags : Nat) (d : CBORDecoder) :
    Except String (Nat × Nat × CBORDecoder) :=
  match decodeTagAndValue flags d with
  | Except.error e => Except.error e
  | Except.ok (tag, value, length, d1) =>
    if tag ≠ Tag.Major.array then
      Except.error ("Expected Tag.Major.array, but found " ++ toString tag)
    else Except.ok (value, length, d1)

/-- `CBORDecoder.decodeMapSize`: note that the source compares the decoded
tag against `Tag.Major.mask`, not `Tag.Major.map`. -/
def decodeMapSize (flags : Nat) (d : CBORDecoder) :
    Except String (Nat × Nat × CBORDecoder) :=
  match decodeTagAndValue flags d with
  | Except.error e => Except.error e
  | Except.ok (tag, value, length, d1) =>
    if tag ≠ Tag.Major.mask then
      Except.error ("Expected Tag.Major.map, but found " ++ toString tag)
    else Except.ok (value, length, d1)

end CBORDecoder

/-! ## Helper lemmas -/

/-- Characterisation of `Nat.log2` on an interval of powers of two. -/
theorem log2_eq_of (n k : Nat) (h1 : 2 ^ k ≤ n) (h2 : n < 2 ^ (k + 1)) :
    Nat.log2 n = k := by
  have hn : n ≠ 0 := by
    have : (0 : Nat) < 2 ^ k := Nat.pos_pow_of_pos _ (by norm_num)
    omega
  have ha := (Nat.log2_lt hn).mpr h2
  have hb : ¬ (Nat.log2 n < k) := fun hl => by
    have := (Nat.log2_lt hn).mp hl; omega
  omega

/-- Evaluation rule for `get_byte_length` above the inline range. -/
theorem gbl_concrete (v L k : Nat) (h24 : ¬ v < 24) (hl : Nat.log2 v = L)
    (hk : (L + 1 + 7) / 8 = k) : get_byte_length v = k := by
  have hv0 : v ≠ 0 := by omega
  rw [get_byte_length, if_neg h24, bit_length, if_neg hv0, hl, hk]

theorem gbl_24 : get_byte_length 24 = 1 :=
  gbl_concrete _ 4 _ (by norm_num) (log2_eq_of _ 4 (by norm_num) (by norm_num))
    (by norm_num)

theorem gbl_255 : get_byte_length 255 = 1 :=
  gbl_concrete _ 7 _ (by norm_num) (log2_eq_of _ 7 (by norm_num) (by norm_num))
    (by norm_num)

theorem gbl_256 : get_byte_length 256 = 2 :=
  gbl_concrete _ 8 _ (by norm_num) (log2_eq_of _ 8 (by norm_num) (by norm_num))
    (by norm_num)

theorem gbl_65535 : get_byte_length 65535 = 2 :=
  gbl_concrete _ 15 _ (by norm_num) (log2_eq_of _ 15 (by norm_num) (by norm_num))
    (by norm_num)

theorem gbl_65536 : get_byte_length 65536 = 3 :=
  gbl_concrete _ 16 _ (by norm_num) (log2_eq_of _ 16 (by norm_num) (by norm_num))
    (by norm_num)

theorem gbl_4294967295 : get_byte_length 4294967295 = 4 :=
  gbl_concrete _ 31 _ (by norm_num) (log2_eq_of _ 31 (by norm_num) (by norm_num))
    (by norm_num)

theorem gbl_4294967296 : get_byte_length 4294967296 = 5 :=
  gbl_concrete _ 32 _ (by norm_num) (log2_eq_of _ 32 (by norm_num) (by norm_num))
    (by norm_num)

theorem gbl_uint64_max : get_byte_length 18446744073709551615 = 8 :=
  gbl_concrete _ 63 _ (by norm_num) (log2_eq_of _ 63 (by norm_num) (by norm_num))
    (by norm_num)

theorem gbl_two_pow_64 : get_byte_length 18446744073709551616 = 9 :=
  gbl_concrete _ 64 _ (by norm_num) (log2_eq_of _ 64 (by norm_num) (by norm_num))
    (by norm_num)

deriving instance DecidableEq for Except

/-! ## Claim theorems (concrete evaluations) -/

/-- C1: for each supported magnitude in {0, 1, 23, 24, 255, 256, 65535,
65536, 2^32-1, 2^32, 2^64-1}, encode-then-decode recovers the magnitude,
but the byte count returned by `encodeTagAndValue` differs from the byte
count reported consumed by `decodeTagAndValue` at v = 65536 (4 vs 5) and at
v = 2^32 (6 vs 9), refuting the claimed equality of the two counts. -/
theorem claim_C1_roundtrip_magnitudes_but_count_mismatch :
    (CBOREncoder.encodeTagAndValue ⟨[]⟩ Tag.Major.unsignedInteger 0 =
        Except.ok (1, ⟨[0]⟩) ∧
      CBORDecoder.decodeTagAndValue Flag.none ⟨[0], 0⟩ =
        Except.ok (Tag.Major.unsignedInteger, 0, 1, ⟨[0], 1⟩)) ∧
    (CBOREncoder.encodeTagAndValue ⟨[]⟩ Tag.Major.unsignedInteger 1 =
        Except.ok (1, ⟨[1]⟩) ∧
      CBORDecoder.decodeTagAndValue Flag.none ⟨[1], 0⟩ =
        Except.ok (Tag.Major.unsignedInteger, 1, 1, ⟨[1], 1⟩)) ∧
    (CBOREncoder.encodeTagAndValue ⟨[]⟩ Tag.Major.unsignedInteger 23 =
        Except.ok (1, ⟨[23]⟩) ∧
      CBORDecoder.decodeTagAndValue Flag.none ⟨[23], 0⟩ =
        Except.ok (Tag.Major.unsignedInteger, 23, 1, ⟨[23], 1⟩)) ∧
    (CBOREncoder.encodeTagAndValue ⟨[]⟩ Tag.Major.unsignedInteger 24 =
        Except.ok (2, ⟨[24, 24]⟩) ∧
      CBORDecoder.decodeTagAndValue Flag.none ⟨[24, 24], 0⟩ =
        Except.ok (Tag.Major.unsignedInteger, 24, 2, ⟨[24, 24], 2⟩)) ∧
    (CBOREncoder.encodeTagAndValue ⟨[]⟩ Tag.Major.unsignedInteger 255 =
        Except.ok (2, ⟨[24, 255]⟩) ∧
      CBORDecoder.decodeTagAndValue Flag.none ⟨[24, 255], 0⟩ =
        Except.ok (Tag.Major.unsignedInteger, 255, 2, ⟨[24, 255], 2⟩)) ∧
    (CBOREncoder.encodeTagAndValue ⟨[]⟩ Tag.Major.unsignedInteger 256 =
        Except.ok (3, ⟨[25, 1, 0]⟩) ∧
      CBORDecoder.decodeTagAndValue Flag.none ⟨[25, 1, 0], 0⟩ =
        Except.ok (Tag.Major.unsignedInteger, 256, 3, ⟨[25, 1, 0], 3⟩)) ∧
    (CBOREncoder.encodeTagAndValue ⟨[]⟩ Tag.Major.unsignedInteger 65535 =
        Except.ok (3, ⟨[25, 255, 255]⟩) ∧
      CBORDecoder.decodeTagAndValue Flag.none ⟨[25, 255, 255], 0⟩ =
        Except.ok (Tag.Major.unsignedInteger, 65535, 3, ⟨[25, 255, 255], 3⟩)) ∧
    (CBOREncoder.encodeTagAndValue ⟨[]⟩ Tag.Major.unsignedInteger 65536 =
        Except.ok (4, ⟨[26, 0, 1, 0, 0]⟩) ∧
      CBORDecoder.decodeTagAndValue Flag.none ⟨[26, 0, 1, 0, 0], 0⟩ =
        Except.ok (Tag.Major.unsignedInteger, 65536, 5, ⟨[26, 0, 1, 0, 0], 5⟩)) ∧
    (CBOREncoder.encodeTagAndValue ⟨[]⟩ Tag.Major.unsignedInteger 4294967295 =
        Except.ok (5, ⟨[26, 255, 255, 255, 255]⟩) ∧
      CBORDecoder.decodeTagAndValue Flag.none ⟨[26, 255, 255, 255, 255], 0⟩ =
        Except.ok (Tag.Major.unsignedInteger, 4294967295, 5,
          ⟨[26, 255, 255, 255, 255], 5⟩)) ∧
    (CBOREncoder.encodeTagAndValue ⟨[]⟩ Tag.Major.unsignedInteger 4294967296 =
        Except.ok (6, ⟨[27, 0, 0, 0, 1, 0, 0, 0, 0]⟩) ∧
      CBORDecoder.decodeTagAndValue Flag.none ⟨[27, 0, 0, 0, 1, 0, 0, 0, 0], 0⟩ =
        Except.ok (Tag.Major.unsignedInteger, 4294967296, 9,
          ⟨[27, 0, 0, 0, 1, 0, 0, 0, 0], 9⟩)) ∧
    (CBOREncoder.encodeTagAndValue ⟨[]⟩ Tag.Major.unsignedInteger
        18446744073709551615 =
        Except.ok (9, ⟨[27, 255, 255, 255, 255, 255, 255, 255, 255]⟩) ∧
      CBORDecoder.decodeTagAndValue Flag.none
          ⟨[27, 255, 255, 255, 255, 255, 255, 255, 255], 0⟩ =
        Except.ok (Tag.Major.unsignedInteger, 18446744073709551615, 9,
          ⟨[27, 255, 255, 255, 255, 255, 255, 255, 255], 9⟩)) ∧
    (4 : Nat) ≠ 5 ∧ (6 : Nat) ≠ 9 := by
  refine ⟨⟨rfl, rfl⟩, ⟨rfl, rfl⟩, ⟨rfl, rfl⟩, ⟨?_, rfl⟩, ⟨?_, rfl⟩, ⟨?_, rfl⟩,
    ⟨?_, rfl⟩, ⟨?_, rfl⟩, ⟨?_, rfl⟩, ⟨?_, rfl⟩, ⟨?_, rfl⟩, by decide, by decide⟩
  · simp only [CBOREncoder.encodeTagAndValue, CBOREncoder.encodeTagAndAdditional,
      gbl_24]
    decide
  · simp only [CBOREncoder.encodeTagAndValue, CBOREncoder.encodeTagAndAdditional,
      gbl_255]
    decide
  · simp only [CBOREncoder.encodeTagAndValue, CBOREncoder.encodeTagAndAdditional,
      gbl_256]
    decide
  · simp only [CBOREncoder.encodeTagAndValue, CBOREncoder.encodeTagAndAdditional,
      gbl_65535]
    decide
  · simp only [CBOREncoder.encodeTagAndValue, CBOREncoder.encodeTagAndAdditional,
      gbl_65536]
    decide
  · simp only [CBOREncoder.encodeTagAndValue, CBOREncoder.encodeTagAndAdditional,
      gbl_4294967295]
    decide
  · simp only [CBOREncoder.encodeTagAndValue, CBOREncoder.encodeTagAndAdditional,
      gbl_4294967296]
    decide
  · simp only [CBOREncoder.encodeTagAndValue, CBOREncoder.encodeTagAndAdditional,
      gbl_uint64_max]
    decide

/-- C2: `encodeTagAndValue` returns `1 + computed byte length`, not
`1 + emitted width`: for 65536 (computed length 3, emitted width 4) it
appends 5 bytes but returns 4, and for 2^32 (computed length 5, emitted
width 8) it appends 9 bytes but returns 6, refuting the claimed return
values of 5 and 9. -/
theorem claim_C2_return_is_computed_not_emitted :
    (CBOREncoder.encodeTagAndValue ⟨[]⟩ Tag.Major.unsignedInteger 65536 =
        Except.ok (4, ⟨[26, 0, 1, 0, 0]⟩) ∧
      ([26, 0, 1, 0, 0] : List Nat).length = 1 + 4 ∧ (4 : Nat) ≠ 1 + 4) ∧
    (CBOREncoder.encodeTagAndValue ⟨[]⟩ Tag.Major.unsignedInteger 4294967296 =
        Except.ok (6, ⟨[27, 0, 0, 0, 1, 0, 0, 0, 0]⟩) ∧
      ([27, 0, 0, 0, 1, 0, 0, 0, 0] : List Nat).length = 1 + 8 ∧
      (6 : Nat) ≠ 1 + 8) := by
  simp only [CBOREncoder.encodeTagAndValue, CBOREncoder.encodeTagAndAdditional,
    gbl_65536, gbl_4294967296]
  decide

/-- C3: on the multi-byte read paths the third component of the result of
`decodeTagAndValue` is the absolute cursor position `self.pos`, not the
number of bytes consumed: starting at cursor 1 on `[0, 24, 42]`, the call
consumes 2 bytes (cursor moves from 1 to 3) but reports 3, refuting the
claim for nonzero starting positions. -/
theorem claim_C3_reports_absolute_position_not_consumed :
    CBORDecoder.decodeTagAndValue Flag.none ⟨[0, 24, 42], 1⟩ =
      Except.ok (Tag.Major.unsignedInteger, 42, 3, ⟨[0, 24, 42], 3⟩) ∧
    (3 : Nat) - 1 = 2 ∧ (3 : Nat) ≠ 2 := by
  exact ⟨rfl, rfl, by decide⟩

/-- C6: `decodeMapSize` compares the decoded major tag against
`Tag.Major.mask` (0xe0) instead of `Tag.Major.map` (0xa0), so decoding the
output of `encodeMapSize` always fails with the type-mismatch error,
refuting the claimed round trip; the array-header half of the claim
(map-size decode of an array header fails) does hold. -/
theorem claim_C6_mapsize_roundtrip_raises :
    CBOREncoder.encodeMapSize ⟨[]⟩ 0 = Except.ok (1, ⟨[160]⟩) ∧
    CBORDecoder.decodeMapSize Flag.none ⟨[160], 0⟩ =
      Except.error "Expected Tag.Major.map, but found 160" ∧
    CBOREncoder.encodeArraySize ⟨[]⟩ 0 = Except.ok (1, ⟨[128]⟩) ∧
    CBORDecoder.decodeMapSize Flag.none ⟨[128], 0⟩ =
      Except.error "Expected Tag.Major.map, but found 128" := by
  exact ⟨rfl, rfl, rfl, rfl⟩

/-- C7: `encodeText` passes a bytes object to `bytearray.append`, which
accepts only an integer, so the call raises `TypeError` for every string
(shown here for "a") instead of appending the payload bytes, refuting the
claimed append-and-round-trip behaviour. -/
theorem claim_C7_encodeText_raises_TypeError :
    CBOREncoder.encodeText ⟨[]⟩ "a" =
      Except.error
        "TypeError: an integer is required (bytearray.append with a bytes argument)" := by
  rfl

/-- C8: `decodeInteger` handles the unsigned and negative tags (returning
the magnitude and `-1 - magnitude` respectively) but has no else branch:
on any other major tag (here a byte-string header, tag 64) it falls
through and returns Python `None` instead of raising the claimed
type-mismatch error. -/
theorem claim_C8_decodeInteger_returns_none_on_mismatch :
    CBORDecoder.decodeInteger Flag.none ⟨[64], 0⟩ =
      Except.ok (none, ⟨[64], 1⟩) ∧
    CBORDecoder.decodeInteger Flag.none ⟨[5], 0⟩ =
      Except.ok (some (5, 1), ⟨[5], 1⟩) ∧
    CBORDecoder.decodeInteger Flag.none ⟨[37], 0⟩ =
      Except.ok (some (-6, 1), ⟨[37], 1⟩) := by
  exact ⟨rfl, rfl, rfl⟩

/-- C10: the embedded-bytes round trip recovers the payload, but for a
24-byte payload the reported consumed length is 30, not the claimed
outer-header + inner-header + payload = 2 + 2 + 24 = 28, because the inner
`decodeTagAndValue` reports the absolute cursor (4) instead of the inner
header length (2). -/
theorem claim_C10_encoded_bytes_count_mismatch :
    CBOREncoder.encodeEncodedBytes ⟨[]⟩ (List.replicate 24 0) =
      Except.ok (28, ⟨[216, 24, 88, 24] ++ List.replicate 24 0⟩) ∧
    CBORDecoder.decodeEncodedBytes Flag.none
        ⟨[216, 24, 88, 24] ++ List.replicate 24 0, 0⟩ =
      Except.ok (List.replicate 24 0, 30,
        ⟨[216, 24, 88, 24] ++ List.replicate 24 0, 28⟩) ∧
    (30 : Nat) ≠ 2 + 2 + 24 := by
  refine ⟨?_, rfl, by decide⟩
  simp only [CBOREncoder.encodeEncodedBytes, CBOREncoder.encodeBytes,
    CBOREncoder.encodeTagAndValue, CBOREncoder.encodeTagAndAdditional,
    Tag.Minor.cborEncodedData, List.length_replicate, gbl_24]
  decide

/-! ## Specification-side definitions for the decode claims -/

/-- The big-endian (base-256) value of a byte list: the specification's
"reads that many bytes big-endian into the magnitude". -/
def bigEndianVal : List Nat → Nat
  | [] => 0
  | b :: rest => b * 256 ^ rest.length + bigEndianVal rest

/-- The read width selected by a minor indicator: 24/25/26/27 select 1/2/4/8
bytes, anything else no multi-byte read. -/
def additionalWidth (a : Nat) : Option Nat :=
  if a = 24 then some 1
  else if a = 25 then some 2
  else if a = 26 then some 4
  else if a = 27 then some 8
  else none

/-- Width `w` can hold magnitude `v` (`w = 0` is the inline header form). -/
def canHold (w v : Nat) : Prop :=
  (w = 0 ∧ v < 24) ∨ (w ≠ 0 ∧ v < 2 ^ (8 * w))

/-! ## Bitwise helper lemmas -/

theorem lor_shiftLeft_eq_add (a b k : Nat) (hb : b < 2 ^ k) :
    a <<< k ||| b = a * 2 ^ k + b := by
  apply Nat.eq_of_testBit_eq
  intro j
  rw [Nat.testBit_lor, Nat.testBit_shiftLeft]
  have h : a * 2 ^ k + b = 2 ^ k * a + b := by ring_nf
  rw [h, Nat.testBit_mul_pow_two_add a hb]
  rcases Nat.lt_or_ge j k with hj | hj
  · simp [hj, Nat.not_le.mpr hj]
  · have hbf : b.testBit j = false := by
      apply Nat.testBit_eq_false_of_lt
      calc b < 2 ^ k := hb
        _ ≤ 2 ^ j := Nat.pow_le_pow_right (by norm_num) hj
    simp [hj, hbf, Nat.not_lt.mpr hj]

/-- A byte list with in-range entries has a base-256 value below
`256 ^ length`. -/
theorem bigEndianVal_lt (l : List Nat) (h : ∀ x ∈ l, x < 256) :
    bigEndianVal l < 256 ^ l.length := by
  induction l with
  | nil => simp [bigEndianVal]
  | cons b rest ih =>
    have hb : b < 256 := h b (List.mem_cons_self b rest)
    have hr := ih (fun x hx => h x (List.mem_cons_of_mem b hx))
    calc bigEndianVal (b :: rest) = b * 256 ^ rest.length + bigEndianVal rest := rfl
      _ < b * 256 ^ rest.length + 256 ^ rest.length := by omega
      _ = (b + 1) * 256 ^ rest.length := by ring
      _ ≤ 256 * 256 ^ rest.length := by
          have : b + 1 ≤ 256 := by omega
          exact Nat.mul_le_mul_right _ this
      _ = 256 ^ (b :: rest).length := by
          simp [List.length_cons, pow_succ]
          ring

/-- The descending shift list `[8*(k-1), ..., 8, 0]` used by the decoder's
read loop for a `k`-byte field. -/
def shiftList : Nat → List Nat
  | 0 => []
  | k + 1 => 8 * k :: shiftList k

/-- A `k`-byte slice decomposes as head byte plus `(k-1)`-byte tail. -/
theorem slice_cons (buf : List Nat) (pos k : Nat) (h : pos + (k + 1) ≤ buf.length) :
    (buf.drop pos).take (k + 1) =
      buf.getD pos 0 :: (buf.drop (pos + 1)).take k := by
  have hpos : pos < buf.length := by omega
  rw [List.drop_eq_getElem_cons hpos, List.take_succ_cons,
    List.getD_eq_getElem _ _ hpos]

/-- Bytes of a slice are bytes of the buffer. -/
theorem slice_mem (buf : List Nat) (pos k : Nat) (x : Nat)
    (hx : x ∈ (buf.drop pos).take k) : x ∈ buf :=
  List.mem_of_mem_drop (List.mem_of_mem_take hx)

/-- The decoder's big-endian read loop computes the base-256 value of the
`k`-byte slice at the cursor, leaving the cursor `k` bytes further on. -/
theorem readLoop_shiftList (buf : List Nat) (hb : ∀ x ∈ buf, x < 256) :
    ∀ (k pos acc : Nat), pos + k ≤ buf.length →
      CBORDecoder.readLoop buf (shiftList k) pos acc =
        (acc ||| bigEndianVal ((buf.drop pos).take k), pos + k) := by
  intro k
  induction k with
  | zero =>
    intro pos acc _
    simp [shiftList, CBORDecoder.readLoop, bigEndianVal]
  | succ k ih =>
    intro pos acc h
    have hstep : CBORDecoder.readLoop buf (shiftList (k + 1)) pos acc =
        CBORDecoder.readLoop buf (shiftList k) (pos + 1)
          (acc ||| (buf.getD pos 0) <<< (8 * k)) := rfl
    rw [hstep, ih (pos + 1) _ (by omega), slice_cons buf pos k h]
    have hslice : ∀ x ∈ (buf.drop (pos + 1)).take k, x < 256 :=
      fun x hx => hb x (slice_mem _ _ _ _ hx)
    have hlen : ((buf.drop (pos + 1)).take k).length = k := by
      rw [List.length_take, List.length_drop]
      omega
    have hR : bigEndianVal ((buf.drop (pos + 1)).take k) < 2 ^ (8 * k) := by
      have := bigEndianVal_lt _ hslice
      rw [hlen] at this
      calc bigEndianVal ((buf.drop (pos + 1)).take k) < 256 ^ k := this
        _ = 2 ^ (8 * k) := by rw [show (256 : Nat) = 2 ^ 8 from by norm_num, ← pow_mul]
    have hval : (buf.getD pos 0) <<< (8 * k) |||
        bigEndianVal ((buf.drop (pos + 1)).take k) =
        buf.getD pos 0 * 256 ^ k + bigEndianVal ((buf.drop (pos + 1)).take k) := by
      rw [lor_shiftLeft_eq_add _ _ _ hR]
      congr 1
      rw [show (256 : Nat) = 2 ^ 8 from by norm_num, ← pow_mul]
    rw [Prod.mk.injEq]
    refine ⟨?_, by omega⟩
    rw [Nat.lor_assoc, hval]
    simp [bigEndianVal, hlen]

theorem getElem?_pos_lt (l : List Nat) (n x : Nat) (h : l[n]? = some x) :
    n < l.length := by
  rcases List.getElem?_eq_some_iff.mp h with ⟨hl, _⟩
  exact hl

/-- `decodeTagAndAdditional` on a readable position. -/
theorem dtaa_ok (buf : List Nat) (pos octet : Nat) (h : buf[pos]? = some octet) :
    CBORDecoder.decodeTagAndAdditional ⟨buf, pos⟩ =
      Except.ok (octet &&& Tag.Major.mask, octet &&& Tag.Minor.mask, 1,
        ⟨buf, pos + 1⟩) := by
  have hlt : pos < buf.length := getElem?_pos_lt _ _ _ h
  simp [CBORDecoder.decodeTagAndAdditional, h, Nat.ne_of_lt hlt]

/-- `decodeTagAndValue` with the cursor at the end of the buffer. -/
theorem dtv_at_end (flags : Nat) (buf : List Nat) (pos : Nat)
    (h : pos = buf.length) :
    CBORDecoder.decodeTagAndValue flags ⟨buf, pos⟩ =
      Except.error "Not enough input" := by
  simp [CBORDecoder.decodeTagAndValue, h]

/-- `decodeTagAndValue` on an inline header (minor indicator below 24). -/
theorem dtv_inline (flags : Nat) (buf : List Nat) (pos octet : Nat)
    (h : buf[pos]? = some octet) (ha : octet &&& Tag.Minor.mask < 24) :
    CBORDecoder.decodeTagAndValue flags ⟨buf, pos⟩ =
      Except.ok (octet &&& Tag.Major.mask, octet &&& Tag.Minor.mask, 1,
        ⟨buf, pos + 1⟩) := by
  have hlt : pos < buf.length := getElem?_pos_lt _ _ _ h
  simp [CBORDecoder.decodeTagAndValue, dtaa_ok buf pos octet h,
    Nat.ne_of_lt hlt, Tag.Minor.length1, ha]

/-- `decodeTagAndValue` on a header with a reserved indicator (28-31). -/
theorem dtv_bad (flags : Nat) (buf : List Nat) (pos octet : Nat)
    (h : buf[pos]? = some octet) (ha : 28 ≤ octet &&& Tag.Minor.mask) :
    CBORDecoder.decodeTagAndValue flags ⟨buf, pos⟩ =
      Except.error "Bad additional value" := by
  have hlt : pos < buf.length := getElem?_pos_lt _ _ _ h
  simp [CBORDecoder.decodeTagAndValue, dtaa_ok buf pos octet h,
    Nat.ne_of_lt hlt, Tag.Minor.length1, Tag.Minor.length2, Tag.Minor.length4,
    Tag.Minor.length8, show ¬ (octet &&& Tag.Minor.mask < 24) from by omega,
    show octet &&& Tag.Minor.mask ≠ 27 from by omega,
    show octet &&& Tag.Minor.mask ≠ 26 from by omega,
    show octet &&& Tag.Minor.mask ≠ 25 from by omega,
    show octet &&& Tag.Minor.mask ≠ 24 from by omega]

/-- `decodeTagAndValue` on a multi-byte header: indicator 24/25/26/27 reads
1/2/4/8 big-endian bytes, first checking input length, then the
minimal-encoding flag, and on success reports the absolute cursor. -/
theorem dtv_multi (flags : Nat) (buf : List Nat) (pos octet a w : Nat)
    (hb : ∀ x ∈ buf, x < 256) (h : buf[pos]? = some octet)
    (ha : octet &&& Tag.Minor.mask = a) (hw : additionalWidth a = some w) :
    CBORDecoder.decodeTagAndValue flags ⟨buf, pos⟩ =
      if buf.length - (pos + 1) < w then Except.error "Not enough input"
      else if flags &&& Flag.requireMinimalEncoding ≠ 0 ∧
          bigEndianVal ((buf.drop (pos + 1)).take w) = 0 then
        Except.error "Encoding not minimal"
      else
        Except.ok (octet &&& Tag.Major.mask,
          bigEndianVal ((buf.drop (pos + 1)).take w), pos + 1 + w,
          ⟨buf, pos + 1 + w⟩) := by
  have hlt : pos < buf.length := getElem?_pos_lt _ _ _ h
  unfold additionalWidth at hw
  split_ifs at hw with h24 h25 h26 h27
  · -- indicator 24, one byte read inline in the source
    subst h24
    cases hw
    by_cases hlen : buf.length - (pos + 1) < 1
    · rw [if_pos hlen]
      simp [CBORDecoder.decodeTagAndValue, dtaa_ok buf pos octet h,
        Nat.ne_of_lt hlt, Tag.Minor.length1, Tag.Minor.length2,
        Tag.Minor.length4, Tag.Minor.length8, ha, hlen]
    · rw [if_neg hlen]
      have hcons : (buf.drop (pos + 1)).take 1 = [buf.getD (pos + 1) 0] := by
        rw [slice_cons buf (pos + 1) 0 (by omega)]
        simp
      simp [CBORDecoder.decodeTagAndValue, dtaa_ok buf pos octet h,
        Nat.ne_of_lt hlt, Tag.Minor.length1, Tag.Minor.length2,
        Tag.Minor.length4, Tag.Minor.length8, ha, hlen, hcons, bigEndianVal]
  · -- indicator 25, two-byte read loop
    subst h25
    cases hw
    by_cases hlen : buf.length - (pos + 1) < 2
    · rw [if_pos hlen]
      simp [CBORDecoder.decodeTagAndValue, dtaa_ok buf pos octet h,
        Nat.ne_of_lt hlt, Tag.Minor.length1, Tag.Minor.length2,
        Tag.Minor.length4, Tag.Minor.length8, ha, hlen]
    · rw [if_neg hlen]
      have hrl := readLoop_shiftList buf hb 2 (pos + 1) 0 (by omega)
      have hsl : shiftList 2 = [8, 0] := rfl
      rw [hsl] at hrl
      simp only [Nat.zero_or] at hrl
      simp [CBORDecoder.decodeTagAndValue, dtaa_ok buf pos octet h,
        Nat.ne_of_lt hlt, Tag.Minor.length1, Tag.Minor.length2,
        Tag.Minor.length4, Tag.Minor.length8, ha, hlen, hrl]
  · -- indicator 26, four-byte read loop
    subst h26
    cases hw
    by_cases hlen : buf.length - (pos + 1) < 4
    · rw [if_pos hlen]
      simp [CBORDecoder.decodeTagAndValue, dtaa_ok buf pos octet h,
        Nat.ne_of_lt hlt, Tag.Minor.length1, Tag.Minor.length2,
        Tag.Minor.length4, Tag.Minor.length8, ha, hlen]
    · rw [if_neg hlen]
      have hrl := readLoop_shiftList buf hb 4 (pos + 1) 0 (by omega)
      have hsl : shiftList 4 = [24, 16, 8, 0] := rfl
      rw [hsl] at hrl
      simp only [Nat.zero_or] at hrl
      simp [CBORDecoder.decodeTagAndValue, dtaa_ok buf pos octet h,
        Nat.ne_of_lt hlt, Tag.Minor.length1, Tag.Minor.length2,
        Tag.Minor.length4, Tag.Minor.length8, ha, hlen, hrl]
  · -- indicator 27, eight-byte read loop
    subst h27
    cases hw
    by_cases hlen : buf.length - (pos + 1) < 8
    · rw [if_pos hlen]
      simp [CBORDecoder.decodeTagAndValue, dtaa_ok buf pos octet h,
        Nat.ne_of_lt hlt, Tag.Minor.length1, Tag.Minor.length2,
        Tag.Minor.length4, Tag.Minor.length8, ha, hlen]
    · rw [if_neg hlen]
      have hrl := readLoop_shiftList buf hb 8 (pos + 1) 0 (by omega)
      have hsl : shiftList 8 = [56, 48, 40, 32, 24, 16, 8, 0] := rfl
      rw [hsl] at hrl
      simp only [Nat.zero_or] at hrl
      simp [CBORDecoder.decodeTagAndValue, dtaa_ok buf pos octet h,
        Nat.ne_of_lt hlt, Tag.Minor.length1, Tag.Minor.length2,
        Tag.Minor.length4, Tag.Minor.length8, ha, hlen, hrl]

/-- `decodeTagAndValue` with the cursor strictly past the end (unreachable
through the public API, included for completeness of the case analysis). -/
theorem dtv_oob (flags : Nat) (buf : List Nat) (pos : Nat)
    (hne : pos ≠ buf.length) (h : buf[pos]? = none) :
    CBORDecoder.decodeTagAndValue flags ⟨buf, pos⟩ =
      Except.error "IndexError" := by
  simp [CBORDecoder.decodeTagAndValue, CBORDecoder.decodeTagAndAdditional, hne, h]

/-- C5: decodeTagAndValue fails with "Not enough input" when the cursor is
at the end; an indicator below 24 yields the indicator itself as magnitude
with no further bytes read; indicators 24/25/26/27 read exactly 1/2/4/8
further big-endian bytes as the magnitude (failing with "Not enough input"
when fewer remain; with the minimal-encoding flag set a zero magnitude is
instead rejected, see C9); indicators 28-31 fail with "Bad additional
value". -/
theorem claim_C5_decode_header_behaviour (flags : Nat) (buf : List Nat)
    (pos : Nat) (hb : ∀ x ∈ buf, x < 256) :
    (pos = buf.length →
      CBORDecoder.decodeTagAndValue flags ⟨buf, pos⟩ =
        Except.error "Not enough input") ∧
    (∀ octet, buf[pos]? = some octet →
      (octet &&& Tag.Minor.mask < 24 →
        CBORDecoder.decodeTagAndValue flags ⟨buf, pos⟩ =
          Except.ok (octet &&& Tag.Major.mask, octet &&& Tag.Minor.mask, 1,
            ⟨buf, pos + 1⟩)) ∧
      (∀ w, additionalWidth (octet &&& Tag.Minor.mask) = some w →
        (buf.length - (pos + 1) < w →
          CBORDecoder.decodeTagAndValue flags ⟨buf, pos⟩ =
            Except.error "Not enough input") ∧
        (w ≤ buf.length - (pos + 1) →
          CBORDecoder.decodeTagAndValue flags ⟨buf, pos⟩ =
            Except.ok (octet &&& Tag.Major.mask,
              bigEndianVal ((buf.drop (pos + 1)).take w), pos + 1 + w,
              ⟨buf, pos + 1 + w⟩) ∨
          (flags &&& Flag.requireMinimalEncoding ≠ 0 ∧
            bigEndianVal ((buf.drop (pos + 1)).take w) = 0 ∧
            CBORDecoder.decodeTagAndValue flags ⟨buf, pos⟩ =
              Except.error "Encoding not minimal"))) ∧
      (28 ≤ octet &&& Tag.Minor.mask →
        CBORDecoder.decodeTagAndValue flags ⟨buf, pos⟩ =
          Except.error "Bad additional value")) := by
  refine ⟨fun h => dtv_at_end flags buf pos h, fun octet h => ⟨?_, ?_, ?_⟩⟩
  · exact fun ha => dtv_inline flags buf pos octet h ha
  · intro w hw
    refine ⟨?_, ?_⟩
    · intro hlen
      rw [dtv_multi flags buf pos octet _ w hb h rfl hw, if_pos hlen]
    · intro hlen
      rw [dtv_multi flags buf pos octet _ w hb h rfl hw, if_neg (by omega)]
      by_cases hmin : flags &&& Flag.requireMinimalEncoding ≠ 0 ∧
        bigEndianVal ((buf.drop (pos + 1)).take w) = 0
      · exact Or.inr ⟨hmin.1, hmin.2, by rw [if_pos hmin]⟩
      · exact Or.inl (by rw [if_neg hmin])
  · exact fun ha => dtv_bad flags buf pos octet h ha

/-- Witness for C5 at concrete inputs covering all four branches. -/
theorem claim_C5_decode_header_behaviour_witness :
    CBORDecoder.decodeTagAndValue 0 ⟨[25, 1, 2], 3⟩ =
      Except.error "Not enough input" ∧
    CBORDecoder.decodeTagAndValue 0 ⟨[5], 0⟩ =
      Except.ok (5 &&& Tag.Major.mask, 5 &&& Tag.Minor.mask, 1, ⟨[5], 1⟩) ∧
    (CBORDecoder.decodeTagAndValue 0 ⟨[25, 1, 2], 0⟩ =
      Except.ok (25 &&& Tag.Major.mask,
        bigEndianVal ((([25, 1, 2] : List Nat).drop 1).take 2), 3,
        ⟨[25, 1, 2], 3⟩) ∨
      (0 &&& Flag.requireMinimalEncoding ≠ 0 ∧
        bigEndianVal ((([25, 1, 2] : List Nat).drop 1).take 2) = 0 ∧
        CBORDecoder.decodeTagAndValue 0 ⟨[25, 1, 2], 0⟩ =
          Except.error "Encoding not minimal")) ∧
    CBORDecoder.decodeTagAndValue 0 ⟨[28], 0⟩ =
      Except.error "Bad additional value" := by
  refine ⟨(claim_C5_decode_header_behaviour 0 [25, 1, 2] 3 (by decide)).1 rfl,
    ((claim_C5_decode_header_behaviour 0 [5] 0 (by decide)).2 5 rfl).1 (by decide),
    (((claim_C5_decode_header_behaviour 0 [25, 1, 2] 0 (by decide)).2 25
      rfl).2.1 2 (by decide)).2 (by decide),
    ((claim_C5_decode_header_behaviour 0 [28] 0 (by decide)).2 28 rfl).2.2
      (by decide)⟩

/-- C9: with requireMinimalEncoding set, decodeTagAndValue fails with
"Encoding not minimal" exactly when a multi-byte read path (indicator
24/25/26/27 with enough input) decodes a magnitude of zero; in particular
the magnitude 1 encoded in an 8-byte field is accepted. -/
theorem claim_C9_minimal_flag_rejects_only_zero (flags : Nat) (buf : List Nat) (pos : Nat)
    (hb : ∀ x ∈ buf, x < 256)
    (hf : flags &&& Flag.requireMinimalEncoding ≠ 0) :
    (CBORDecoder.decodeTagAndValue flags ⟨buf, pos⟩ =
        Except.error "Encoding not minimal" ↔
      ∃ octet w, buf[pos]? = some octet ∧
        additionalWidth (octet &&& Tag.Minor.mask) = some w ∧
        w ≤ buf.length - (pos + 1) ∧
        bigEndianVal ((buf.drop (pos + 1)).take w) = 0) ∧
    CBORDecoder.decodeTagAndValue flags ⟨[27, 0, 0, 0, 0, 0, 0, 0, 1], 0⟩ =
      Except.ok (0, 1, 9, ⟨[27, 0, 0, 0, 0, 0, 0, 0, 1], 9⟩) := by
  constructor
  · rcases h' : buf[pos]? with _ | octet
    · by_cases hend : pos = buf.length
      · rw [dtv_at_end flags buf pos hend]
        constructor
        · intro hc
          exact absurd hc (by decide)
        · rintro ⟨o, w, ho, -⟩
          cases ho
      · rw [dtv_oob flags buf pos hend h']
        constructor
        · intro hc
          exact absurd hc (by decide)
        · rintro ⟨o, w, ho, -⟩
          cases ho
    · rcases hw' : additionalWidth (octet &&& Tag.Minor.mask) with _ | w
      · have hna : octet &&& Tag.Minor.mask < 24 ∨
            28 ≤ octet &&& Tag.Minor.mask := by
          unfold additionalWidth at hw'
          split_ifs at hw' with h24 h25 h26 h27
          omega
        have hfalse : ¬ ∃ o w, some octet = some o ∧
            additionalWidth (o &&& Tag.Minor.mask) = some w ∧
            w ≤ buf.length - (pos + 1) ∧
            bigEndianVal ((buf.drop (pos + 1)).take w) = 0 := by
          rintro ⟨o, w, ho, haw, -⟩
          cases ho
          rw [hw'] at haw
          cases haw
        rcases hna with ha | ha
        · rw [dtv_inline flags buf pos octet h' ha]
          constructor
          · intro hc
            cases hc
          · intro hc
            exact absurd hc hfalse
        · rw [dtv_bad flags buf pos octet h' ha]
          constructor
          · intro hc
            exact absurd hc (by decide)
          · intro hc
            exact absurd hc hfalse
      · rw [dtv_multi flags buf pos octet _ w hb h' rfl hw']
        by_cases hlen : buf.length - (pos + 1) < w
        · rw [if_pos hlen]
          constructor
          · intro hc
            exact absurd hc (by decide)
          · rintro ⟨o, w2, ho, haw, hlen2, -⟩
            cases ho
            rw [hw'] at haw
            cases haw
            omega
        · rw [if_neg hlen]
          by_cases hzero : bigEndianVal ((buf.drop (pos + 1)).take w) = 0
          · rw [if_pos ⟨hf, hzero⟩]
            constructor
            · intro _
              exact ⟨octet, w, rfl, hw', by omega, hzero⟩
            · intro _
              rfl
          · rw [if_neg (fun hc => hzero hc.2)]
            constructor
            · intro hc
              cases hc
            · rintro ⟨o, w2, ho, haw, hlen2, hz⟩
              cases ho
              rw [hw'] at haw
              cases haw
              exact absurd hz hzero
  · have hbe : bigEndianVal ((([27, 0, 0, 0, 0, 0, 0, 0, 1] : List Nat).drop
        (0 + 1)).take 8) = 1 := rfl
    rw [dtv_multi flags [27, 0, 0, 0, 0, 0, 0, 0, 1] 0 27 27 8 (by decide) rfl
      (by decide) (by decide)]
    rw [if_neg (by decide), hbe, if_neg (by simp)]
    decide

/-- The computed byte length is at most `k` (for positive `k`) exactly when
the magnitude fits in `k` bytes. -/
theorem gbl_le_iff (v k : Nat) (hk : 1 ≤ k) :
    get_byte_length v ≤ k ↔ v < 2 ^ (8 * k) := by
  by_cases hv : v < 24
  · have hle : (2 : Nat) ^ 8 ≤ 2 ^ (8 * k) :=
      Nat.pow_le_pow_right (by norm_num) (by omega)
    simp [get_byte_length, hv]
    exact lt_of_lt_of_le (by omega) hle
  · have hv0 : v ≠ 0 := by omega
    rw [get_byte_length, if_neg hv, bit_length, if_neg hv0]
    have hdiv : (Nat.log2 v + 1 + 7) / 8 ≤ k ↔
        Nat.log2 v + 1 + 7 < (k + 1) * 8 := by
      rw [← Nat.lt_succ_iff, Nat.div_lt_iff_lt_mul (by norm_num)]
    have hlog : Nat.log2 v < 8 * k ↔ v < 2 ^ (8 * k) := Nat.log2_lt hv0
    constructor
    · intro hle
      have h1 := hdiv.mp hle
      exact hlog.mp (by omega)
    · intro hlt
      have h1 := hlog.mpr hlt
      exact hdiv.mpr (by omega)

/-- The computed byte length is zero exactly for inline magnitudes. -/
theorem gbl_eq_zero_iff (v : Nat) : get_byte_length v = 0 ↔ v < 24 := by
  by_cases hv : v < 24
  · simp [get_byte_length, hv]
  · have hv0 : v ≠ 0 := by omega
    rw [get_byte_length, if_neg hv, bit_length, if_neg hv0]
    have h8 : 1 ≤ (Nat.log2 v + 1 + 7) / 8 :=
      (Nat.le_div_iff_mul_le (by norm_num)).mpr (by omega)
    constructor
    · intro h0
      omega
    · intro hc
      exact absurd hc hv

/-- A width that can hold a magnitude is at least its computed byte length. -/
theorem canHold_imp (w2 v : Nat) (h : canHold w2 v) : get_byte_length v ≤ w2 := by
  rcases h with ⟨h0, h24⟩ | ⟨hne, hpow⟩
  · subst h0
    exact Nat.le_of_eq ((gbl_eq_zero_iff v).mpr h24)
  · exact (gbl_le_iff v w2 (by omega)).mpr hpow

/-- C4: for every magnitude below 2^64 the encoder succeeds and emits a
width in {0, 1, 2, 4, 8} that is the smallest such width able to hold the
magnitude (computed length 3 rounds up to 4, computed lengths 5-7 round up
to 8); every magnitude of 2^64 or more fails with the unsupported-width
error. -/
theorem claim_C4_width_selection (tag v : Nat) (e : CBOREncoder) :
    (v < 2 ^ 64 →
      ∃ w r e2, CBOREncoder.encodeTagAndValue e tag v = Except.ok (r, e2) ∧
        e2.buf.length = e.buf.length + 1 + w ∧
        (w = 0 ∨ w = 1 ∨ w = 2 ∨ w = 4 ∨ w = 8) ∧
        canHold w v ∧
        ∀ w2, (w2 = 0 ∨ w2 = 1 ∨ w2 = 2 ∨ w2 = 4 ∨ w2 = 8) →
          canHold w2 v → w ≤ w2) ∧
    (2 ^ 64 ≤ v →
      CBOREncoder.encodeTagAndValue e tag v =
        Except.error ("Unsupported byte length of " ++
          toString (get_byte_length v) ++ " for value in encodeTagAndValue()")) := by
  have h64 : (2 : Nat) ^ (8 * 8) = 2 ^ 64 := by norm_num
  constructor
  · intro hv64
    have hL8 : get_byte_length v ≤ 8 :=
      (gbl_le_iff v 8 (by norm_num)).mpr (h64 ▸ hv64)
    have hcase : get_byte_length v = 0 ∨ get_byte_length v = 1 ∨
        get_byte_length v = 2 ∨ get_byte_length v = 3 ∨
        get_byte_length v = 4 ∨ get_byte_length v = 5 ∨
        get_byte_length v = 6 ∨ get_byte_length v = 7 ∨
        get_byte_length v = 8 := by omega
    rcases hcase with hL | hL | hL | hL | hL | hL | hL | hL | hL
    · refine ⟨0, 1 + 0, ⟨e.buf ++ [tag + v]⟩, ?_, ?_, ?_, ?_, ?_⟩
      · simp [CBOREncoder.encodeTagAndValue,
          CBOREncoder.encodeTagAndAdditional, hL]
      · simp only [List.length_append, List.length_cons, List.length_nil]
        try omega
      · omega
      · exact Or.inl ⟨rfl, (gbl_eq_zero_iff v).mp hL⟩
      · exact fun w2 _ _ => Nat.zero_le w2
    · refine ⟨1, 1 + 1, ⟨e.buf ++ [tag + Tag.Minor.length1] ++
        [v &&& 0xff]⟩, ?_, ?_, ?_, ?_, ?_⟩
      · simp [CBOREncoder.encodeTagAndValue,
          CBOREncoder.encodeTagAndAdditional, hL]
      · simp only [List.length_append, List.length_cons, List.length_nil]
        try omega
      · omega
      · exact Or.inr ⟨by norm_num, (gbl_le_iff v 1 (by norm_num)).mp (by omega)⟩
      · intro w2 hw2 hold
        have := canHold_imp w2 v hold
        rcases hw2 with rfl | rfl | rfl | rfl | rfl <;> omega
    · refine ⟨2, 1 + 2, ⟨e.buf ++ [tag + Tag.Minor.length2] ++
        [(v >>> 8) &&& 0xff, v &&& 0xff]⟩, ?_, ?_, ?_, ?_, ?_⟩
      · simp [CBOREncoder.encodeTagAndValue,
          CBOREncoder.encodeTagAndAdditional, hL]
      · simp only [List.length_append, List.length_cons, List.length_nil]
        try omega
      · omega
      · exact Or.inr ⟨by norm_num, (gbl_le_iff v 2 (by norm_num)).mp (by omega)⟩
      · intro w2 hw2 hold
        have := canHold_imp w2 v hold
        rcases hw2 with rfl | rfl | rfl | rfl | rfl <;> omega
    · refine ⟨4, 1 + 3, ⟨e.buf ++ [tag + Tag.Minor.length4] ++
        [(v >>> 24) &&& 0xff, (v >>> 16) &&& 0xff, (v >>> 8) &&& 0xff,
         v &&& 0xff]⟩, ?_, ?_, ?_, ?_, ?_⟩
      · simp [CBOREncoder.encodeTagAndValue,
          CBOREncoder.encodeTagAndAdditional, hL]
      · simp only [List.length_append, List.length_cons, List.length_nil]
        try omega
      · omega
      · exact Or.inr ⟨by norm_num, (gbl_le_iff v 4 (by norm_num)).mp (by omega)⟩
      · intro w2 hw2 hold
        have := canHold_imp w2 v hold
        rcases hw2 with rfl | rfl | rfl | rfl | rfl <;> omega
    · refine ⟨4, 1 + 4, ⟨e.buf ++ [tag + Tag.Minor.length4] ++
        [(v >>> 24) &&& 0xff, (v >>> 16) &&& 0xff, (v >>> 8) &&& 0xff,
         v &&& 0xff]⟩, ?_, ?_, ?_, ?_, ?_⟩
      · simp [CBOREncoder.encodeTagAndValue,
          CBOREncoder.encodeTagAndAdditional, hL]
      · simp only [List.length_append, List.length_cons, List.length_nil]
        try omega
      · omega
      · exact Or.inr ⟨by norm_num, (gbl_le_iff v 4 (by norm_num)).mp (by omega)⟩
      · intro w2 hw2 hold
        have := canHold_imp w2 v hold
        rcases hw2 with rfl | rfl | rfl | rfl | rfl <;> omega
    · refine ⟨8, 1 + 5, ⟨e.buf ++ [tag + Tag.Minor.length8] ++
        [(v >>> 56) &&& 0xff, (v >>> 48) &&& 0xff, (v >>> 40) &&& 0xff,
         (v >>> 32) &&& 0xff, (v >>> 24) &&& 0xff, (v >>> 16) &&& 0xff,
         (v >>> 8) &&& 0xff, v &&& 0xff]⟩, ?_, ?_, ?_, ?_, ?_⟩
      · simp [CBOREncoder.encodeTagAndValue,
          CBOREncoder.encodeTagAndAdditional, hL]
      · simp only [List.length_append, List.length_cons, List.length_nil]
        try omega
      · omega
      · exact Or.inr ⟨by norm_num, (gbl_le_iff v 8 (by norm_num)).mp (by omega)⟩
      · intro w2 hw2 hold
        have := canHold_imp w2 v hold
        rcases hw2 with rfl | rfl | rfl | rfl | rfl <;> omega
    · refine ⟨8, 1 + 6, ⟨e.buf ++ [tag + Tag.Minor.length8] ++
        [(v >>> 56) &&& 0xff, (v >>> 48) &&& 0xff, (v >>> 40) &&& 0xff,
         (v >>> 32) &&& 0xff, (v >>> 24) &&& 0xff, (v >>> 16) &&& 0xff,
         (v >>> 8) &&& 0xff, v &&& 0xff]⟩, ?_, ?_, ?_, ?_, ?_⟩
      · simp [CBOREncoder.encodeTagAndValue,
          CBOREncoder.encodeTagAndAdditional, hL]
      · simp only [List.length_append, List.length_cons, List.length_nil]
        try omega
      · omega
      · exact Or.inr ⟨by norm_num, (gbl_le_iff v 8 (by norm_num)).mp (by omega)⟩
      · intro w2 hw2 hold
        have := canHold_imp w2 v hold
        rcases hw2 with rfl | rfl | rfl | rfl | rfl <;> omega
    · refine ⟨8, 1 + 7, ⟨e.buf ++ [tag + Tag.Minor.length8] ++
        [(v >>> 56) &&& 0xff, (v >>> 48) &&& 0xff, (v >>> 40) &&& 0xff,
         (v >>> 32) &&& 0xff, (v >>> 24) &&& 0xff, (v >>> 16) &&& 0xff,
         (v >>> 8) &&& 0xff, v &&& 0xff]⟩, ?_, ?_, ?_, ?_, ?_⟩
      · simp [CBOREncoder.encodeTagAndValue,
          CBOREncoder.encodeTagAndAdditional, hL]
      · simp only [List.length_append, List.length_cons, List.length_nil]
        try omega
      · omega
      · exact Or.inr ⟨by norm_num, (gbl_le_iff v 8 (by norm_num)).mp (by omega)⟩
      · intro w2 hw2 hold
        have := canHold_imp w2 v hold
        rcases hw2 with rfl | rfl | rfl | rfl | rfl <;> omega
    · refine ⟨8, 1 + 8, ⟨e.buf ++ [tag + Tag.Minor.length8] ++
        [(v >>> 56) &&& 0xff, (v >>> 48) &&& 0xff, (v >>> 40) &&& 0xff,
         (v >>> 32) &&& 0xff, (v >>> 24) &&& 0xff, (v >>> 16) &&& 0xff,
         (v >>> 8) &&& 0xff, v &&& 0xff]⟩, ?_, ?_, ?_, ?_, ?_⟩
      · simp [CBOREncoder.encodeTagAndValue,
          CBOREncoder.encodeTagAndAdditional, hL]
      · simp only [List.length_append, List.length_cons, List.length_nil]
        try omega
      · omega
      · exact Or.inr ⟨by norm_num, (gbl_le_iff v 8 (by norm_num)).mp (by omega)⟩
      · intro w2 hw2 hold
        have := canHold_imp w2 v hold
        rcases hw2 with rfl | rfl | rfl | rfl | rfl <;> omega
  · intro hv
    have hL9 : 8 < get_byte_length v := by
      by_contra hc
      push_neg at hc
      have h1 := (gbl_le_iff v 8 (by norm_num)).mp hc
      rw [h64] at h1
      omega
    simp only [CBOREncoder.encodeTagAndValue]
    rw [if_neg (by omega), if_neg (by omega), if_neg (by omega),
      if_neg (by omega), if_neg (by omega)]

/-- Witness for C9 at flags = 1 with a rejected zero magnitude. -/
theorem claim_C9_minimal_flag_rejects_only_zero_witness :
    (CBORDecoder.decodeTagAndValue 1 ⟨[24, 0], 0⟩ =
        Except.error "Encoding not minimal" ↔
      ∃ octet w, ([24, 0] : List Nat)[0]? = some octet ∧
        additionalWidth (octet &&& Tag.Minor.mask) = some w ∧
        w ≤ ([24, 0] : List Nat).length - (0 + 1) ∧
        bigEndianVal ((([24, 0] : List Nat).drop (0 + 1)).take w) = 0) ∧
    CBORDecoder.decodeTagAndValue 1 ⟨[27, 0, 0, 0, 0, 0, 0, 0, 1], 0⟩ =
      Except.ok (0, 1, 9, ⟨[27, 0, 0, 0, 0, 0, 0, 0, 1], 9⟩) :=
  claim_C9_minimal_flag_rejects_only_zero 1 [24, 0] 0 (by decide) (by decide)

/-- Witness for C4 at magnitude 300 (two-byte width) and at 2^64 (error). -/
theorem claim_C4_width_selection_witness :
    (∃ w r e2,
      CBOREncoder.encodeTagAndValue ⟨[]⟩ Tag.Major.unsignedInteger 300 =
        Except.ok (r, e2) ∧
      e2.buf.length = (⟨[]⟩ : CBOREncoder).buf.length + 1 + w ∧
      (w = 0 ∨ w = 1 ∨ w = 2 ∨ w = 4 ∨ w = 8) ∧ canHold w 300 ∧
      ∀ w2, (w2 = 0 ∨ w2 = 1 ∨ w2 = 2 ∨ w2 = 4 ∨ w2 = 8) →
        canHold w2 300 → w ≤ w2) ∧
    CBOREncoder.encodeTagAndValue ⟨[]⟩ Tag.Major.unsignedInteger (2 ^ 64) =
      Except.error ("Unsupported byte length of " ++
        toString (get_byte_length (2 ^ 64)) ++
        " for value in encodeTagAndValue()") :=
  ⟨(claim_C4_width_selection Tag.Major.unsignedInteger 300 ⟨[]⟩).1
      (by norm_num),
    (claim_C4_width_selection Tag.Major.unsignedInteger (2 ^ 64) ⟨[]⟩).2
      (by norm_num)⟩
